import Mathlib

/-
  Verification of the REDCap-PDF-Auto-fill-Core repository
  (src/main.py and src/redcap_helpers.py).

  Shallow embedding conventions:
  * Python dicts are association lists with first-match lookup (dictGet) and
    replace-first-occurrence assignment (dictSet); Python dicts never hold
    duplicate keys, so on the reachable domain these agree with dict semantics.
  * Python str.split / strip / join / endswith are re-implemented structurally
    on the underlying character lists so the kernel can evaluate them.
  * Raised Python exceptions become Except.error with a constructor naming the
    exception class; exit(1) in redcap_helpers.get_record becomes the explicit
    FetchOutcome.exitProcess constructor.
  * pdfrw objects: a PDF document is a list of pages; a page carries an
    optional annotation list (page with a missing '/Annots' key is none); an
    annotation node records its '/Subtype', raw '/T' string (with the
    surrounding parentheses pdfrw keeps, sliced off by [1:-1] = sliceInner),
    optional '/Parent' node, the key list of its '/AP' -> '/D' dictionary, and
    its mutable '/V', '/AS' and '/AP' state.  pdfrw.PdfName adds a '/' prefix.
  * Path objects are modelled as plain strings and Path equality as string
    equality; filesystem existence is an oracle function String -> Bool.
-/

namespace RC

/-! ## Python string primitives, re-implemented structurally -/

/-- Split a character list at every occurrence of a fixed single-character
separator (Python str.split with a 1-character separator). -/
def splitOnChar (c : Char) : List Char → List (List Char)
  | [] => [[]]
  | a :: rest =>
    if a = c then [] :: splitOnChar c rest
    else
      match splitOnChar c rest with
      | [] => [[a]]
      | h :: t => (a :: h) :: t

/-- Split a character list at every occurrence of a fixed two-character
separator, scanning left to right without overlap (Python str.split). -/
def splitOnPair (c1 c2 : Char) : List Char → List (List Char)
  | a :: b :: rest =>
    if a = c1 ∧ b = c2 then [] :: splitOnPair c1 c2 rest
    else
      match splitOnPair c1 c2 (b :: rest) with
      | [] => [[a]]
      | h :: t => (a :: h) :: t
  | [a] => [[a]]
  | [] => [[]]

/-- Split a character list at every occurrence of a fixed three-character
separator, scanning left to right without overlap (Python str.split). -/
def splitOnTriple (c1 c2 c3 : Char) : List Char → List (List Char)
  | a :: b :: c :: rest =>
    if a = c1 ∧ b = c2 ∧ c = c3 then [] :: splitOnTriple c1 c2 c3 rest
    else
      match splitOnTriple c1 c2 c3 (b :: c :: rest) with
      | [] => [[a]]
      | h :: t => (a :: h) :: t
  | [a, b] => [[a, b]]
  | [a] => [[a]]
  | [] => [[]]

/-- Python s.split('___'), the REDCap checkbox separator. -/
def pySplitUnderscores (s : String) : List String :=
  (splitOnTriple '_' '_' '_' s.data).map String.mk

/-- Python s.split(' | '), the spaced REDCap choice separator. -/
def pySplitBarSpaces (s : String) : List String :=
  (splitOnTriple ' ' '|' ' ' s.data).map String.mk

/-- Python s.split('|'). -/
def pySplitBar (s : String) : List String :=
  (splitOnChar '|' s.data).map String.mk

/-- Python s.split(', '), used to separate a choice's raw value from its
display text. -/
def pySplitCommaSpace (s : String) : List String :=
  (splitOnPair ',' ' ' s.data).map String.mk

/-- Python s.split('/'), used for Path component handling. -/
def pySplitSlash (s : String) : List String :=
  (splitOnChar '/' s.data).map String.mk

/-- Python s.split('.'), used for Path suffix handling. -/
def pySplitDot (s : String) : List String :=
  (splitOnChar '.' s.data).map String.mk

/-- Python s.strip(): drop whitespace from both ends. -/
def pyStrip (s : String) : String :=
  String.mk (((s.data.dropWhile Char.isWhitespace).reverse.dropWhile
    Char.isWhitespace).reverse)

/-- Python sep.join(parts). -/
def pyJoin (sep : String) : List String → String
  | [] => ""
  | [x] => x
  | x :: xs => x ++ sep ++ pyJoin sep xs

/-- Python s.endswith(suffix). -/
def pyEndsWith (s suffix : String) : Bool :=
  decide (suffix.data <:+ s.data)

/-- Python s[1:-1]: drop the first and the last character.  pdfrw field-name
strings come wrapped in parentheses, which this removes. -/
def sliceInner (s : String) : String :=
  String.mk ((s.data.drop 1).dropLast)

/-- Truthiness of an optional Python string: None and the empty string are
falsy, everything else truthy. -/
def truthyStr : Option String → Bool
  | none => false
  | some s => !(s == "")

/-! ## Python dict primitives over association lists -/

/-- Python d[key] as an Option: first entry with the given key. -/
def dictGet {α : Type} : List (String × α) → String → Option α
  | [], _ => none
  | (k, v) :: t, key => if k = key then some v else dictGet t key

/-- Python d[key] = val: replace the value of the first entry carrying the
key (keeping its position, as a Python dict does), else append a new entry. -/
def dictSet {α : Type} : List (String × α) → String → α → List (String × α)
  | [], key, val => [(key, val)]
  | (k, v) :: t, key, val =>
    if k = key then (key, val) :: t else (k, v) :: dictSet t key val

/-- Python d.update(other): assign every entry of other into d, in order. -/
def dictUpdate {α : Type} (d other : List (String × α)) : List (String × α) :=
  other.foldl (fun acc kv => dictSet acc kv.1 kv.2) d

/-! ## Data model -/

/-- A value sitting inside a radio-group mapping (a Python dict value).
The pipeline only ever stores booleans there; collapse_radio_groups
defensively checks for non-booleans, represented here by the str case. -/
inductive RVal where
  | str : String → RVal
  | bool : Bool → RVal
deriving DecidableEq

/-- A value of a working record: raw API strings, booleans produced by
checkbox conversion, or the one-entry mappings produced for radio groups. -/
inductive Value where
  | str : String → Value
  | bool : Bool → Value
  | vmap : List (String × RVal) → Value
deriving DecidableEq

/-- One REDCap field-metadata entry.  An absent or empty
select_choices_or_calculations string is represented by "" (both are falsy
in Python and are treated identically by the code). -/
structure FieldMeta where
  field_name : String
  field_type : String
  select_choices_or_calculations : String
deriving DecidableEq

/-- A raw record as returned by the REDCap API: field name to string. -/
abbrev RawRecord : Type := List (String × String)

/-- A working record during normalization: field name to Value. -/
abbrev Record : Type := List (String × Value)

/-- Python exception classes raised by the embedded code. -/
inductive PyErr where
  | typeError
  | valueError
  | keyError
  | attributeError
deriving DecidableEq

/-! ## redcap_helpers.py -/

/-- redcap_helpers._extract_field: variable names of all fields of the
requested type, in metadata order. -/
def extract_field (md : List FieldMeta) (which_field : String) : List String :=
  md.filterMap (fun f => if f.field_type = which_field then some f.field_name else none)

/-- redcap_helpers.get_radio_buttons_checkboxes. -/
def get_radio_buttons_checkboxes (md : List FieldMeta) : List String × List String :=
  (extract_field md "radio", extract_field md "checkbox")

/-- One iteration of the option loop in redcap_helpers.get_multiple_choice_text:
sub_dict[fragments[0]] = ', '.join(fragments[1:]) where fragments is
option.strip().split(', '). -/
def parseChoiceOption (sub : List (String × String)) (option : String) :
    List (String × String) :=
  match pySplitCommaSpace (pyStrip option) with
  | [] => sub
  | f :: rest => dictSet sub f (pyJoin ", " rest)

/-- The entry list of a choice-encoding string: split on ' | ', falling back
to a bare '|' split when that produced a single token. -/
def choiceEntries (s : String) : List String :=
  let choices := pySplitBarSpaces s
  if choices.length = 1 then pySplitBar s else choices

/-- redcap_helpers.get_multiple_choice_text: for every field carrying a
non-empty choice-encoding string, the mapping raw value -> display text. -/
def get_multiple_choice_text (md : List FieldMeta) :
    List (String × List (String × String)) :=
  md.foldl (fun texts f =>
    if f.select_choices_or_calculations = "" then texts
    else dictSet texts f.field_name
      ((choiceEntries f.select_choices_or_calculations).foldl parseChoiceOption []))
    []

/-- The JSON payload of a record-request response, already parsed: either a
JSON object (a dict, whose entries are modelled as a RawRecord) or a JSON
array of records. -/
inductive RecResponse where
  | dict : RawRecord → RecResponse
  | list : List RawRecord → RecResponse

/-- What redcap_helpers.get_record does with a response: return a record
normally, raise LookupError / KeyError, or print and exit the process. -/
inductive FetchOutcome where
  | ok : RawRecord → FetchOutcome
  | raiseLookupError : String → FetchOutcome
  | raiseKeyError : FetchOutcome
  | exitProcess : String → FetchOutcome
deriving DecidableEq

/-- redcap_helpers.get_record, applied to the parsed response text. -/
def get_record (resp : RecResponse) (redcap_unique_identifier record_id : String) :
    FetchOutcome :=
  match resp with
  | RecResponse.dict payload =>
    match dictGet payload "error" with
    | none => FetchOutcome.raiseKeyError
    | some e =>
      if e ≠ "" then
        FetchOutcome.exitProcess
          ("REDCap API returned an error while fetching record " ++ record_id ++ ": " ++ e)
      else
        FetchOutcome.ok payload
  | RecResponse.list records =>
    match records with
    | [] =>
      FetchOutcome.raiseLookupError
        ("No records found where '" ++ redcap_unique_identifier ++ "' = " ++ record_id)
    | [r0] => FetchOutcome.ok r0
    | _ :: _ :: _ =>
      FetchOutcome.raiseLookupError
        ("Multiple records found where '" ++ redcap_unique_identifier ++ "' = "
          ++ record_id ++ " (expected only 1)")

/-! ## main.py: record normalization -/

/-- The synthetic text-field suffix added for each selected radio choice. -/
def RADIO_BUTTON_CHOICE_SUFFIX : String := "__rchoice"

/-- The checkbox test of convert_checkboxes_and_radio_buttons: the key splits
on '___' into at least two parts and the first part is a known checkbox. -/
def isCheckboxKey (checkboxes : List String) (k : String) : Bool :=
  decide (1 < (pySplitUnderscores k).length) &&
    decide ((pySplitUnderscores k).headD "" ∈ checkboxes)

/-- The per-key value rewrite of convert_checkboxes_and_radio_buttons:
checkbox keys become booleans (true iff the raw string is '1'), radio keys
become the one-entry mapping from the raw value to True, anything else is
kept as the raw string. -/
def convertVal (radio_buttons checkboxes : List String) (k v : String) : Value :=
  if isCheckboxKey checkboxes k then Value.bool (decide (v = "1"))
  else if k ∈ radio_buttons then Value.vmap [(v, RVal.bool true)]
  else Value.str v

/-- The new_dict_of_radio_values staged during the pass of
convert_checkboxes_and_radio_buttons: one entry key + '__rchoice' per radio
key whose raw value is non-empty. -/
def convertStaged (radio_buttons checkboxes : List String) (r : RawRecord) :
    List (String × Value) :=
  r.foldl (fun staged kv =>
    if isCheckboxKey checkboxes kv.1 then staged
    else if kv.1 ∈ radio_buttons then
      if kv.2 ≠ "" then
        dictSet staged (kv.1 ++ RADIO_BUTTON_CHOICE_SUFFIX) (Value.str kv.2)
      else staged
    else staged) []

/-- main.convert_checkboxes_and_radio_buttons: rewrite every value in place
(each key of a Python dict is visited exactly once), then r.update the staged
radio-choice text entries after the pass completes. -/
def convert_checkboxes_and_radio_buttons (r : RawRecord) (md : List FieldMeta) :
    Record :=
  let radio_buttons := (get_radio_buttons_checkboxes md).1
  let checkboxes := (get_radio_buttons_checkboxes md).2
  dictUpdate (r.map (fun kv => (kv.1, convertVal radio_buttons checkboxes kv.1 kv.2)))
    (convertStaged radio_buttons checkboxes r)

/-- The loop body of main.convert_dropdowns_to_strings for one metadata
field: for a dropdown field, r[name] is read (KeyError when absent) and, when
non-empty, overwritten with proj_multi_choice_text[name][r[name]] (KeyError
when either lookup misses; a dict used as a key is a TypeError). -/
def dropdownStep (texts : List (String × List (String × String))) (r : Record)
    (f : FieldMeta) : Except PyErr Record :=
  if f.field_type = "dropdown" then
    match dictGet r f.field_name with
    | none => Except.error PyErr.keyError
    | some v =>
      if v ≠ Value.str "" then
        match dictGet texts f.field_name with
        | none => Except.error PyErr.keyError
        | some sub =>
          match v with
          | Value.str s =>
            match dictGet sub s with
            | none => Except.error PyErr.keyError
            | some t => Except.ok (dictSet r f.field_name (Value.str t))
          | Value.bool _ => Except.error PyErr.keyError
          | Value.vmap _ => Except.error PyErr.typeError
      else Except.ok r
  else Except.ok r

/-- main.convert_dropdowns_to_strings: apply dropdownStep over the metadata
list in order. -/
def convert_dropdowns_to_strings (r : Record) (md : List FieldMeta) :
    Except PyErr Record :=
  List.foldlM (dropdownStep (get_multiple_choice_text md)) r md

/-- Python isinstance(x, bool) for radio-group mapping values. -/
def rvalIsBool : RVal → Bool
  | RVal.bool _ => true
  | RVal.str _ => false

/-- Python truthiness of a radio-group mapping value. -/
def rvalIsTrue : RVal → Bool
  | RVal.bool b => b
  | RVal.str _ => false

/-- The loop body of main.collapse_radio_groups for one radio group name:
r[group].values() (KeyError when the key is absent, AttributeError when the
value is not a dict), TypeError when a value is not a boolean, ValueError
unless exactly one value is True, and when the mapping has more than one
entry it is replaced by the single entry whose value is True. -/
def collapseStep (r : Record) (radio_group : String) : Except PyErr Record :=
  match dictGet r radio_group with
  | none => Except.error PyErr.keyError
  | some (Value.str _) => Except.error PyErr.attributeError
  | some (Value.bool _) => Except.error PyErr.attributeError
  | some (Value.vmap m) =>
    let vals := m.map Prod.snd
    if vals.any (fun x => !(rvalIsBool x)) then Except.error PyErr.typeError
    else if !(vals.countP (fun x => rvalIsTrue x) = 1 : Bool) then
      Except.error PyErr.valueError
    else if 1 < m.length then
      match m.find? (fun kv => rvalIsTrue kv.2) with
      | some kv => Except.ok (dictSet r radio_group (Value.vmap [(kv.1, kv.2)]))
      | none => Except.ok r
    else Except.ok r

/-- main.collapse_radio_groups: apply collapseStep to every field declared
with type 'radio' in the metadata, in metadata order. -/
def collapse_radio_groups (r : Record) (md : List FieldMeta) : Except PyErr Record :=
  List.foldlM collapseStep r (extract_field md "radio")

/-- main.prepare_for_fill: the three normalization stages in sequence. -/
def prepare_for_fill (record : RawRecord) (md : List FieldMeta) :
    Except PyErr Record :=
  match convert_dropdowns_to_strings (convert_checkboxes_and_radio_buttons record md) md with
  | Except.error e => Except.error e
  | Except.ok r => collapse_radio_groups r md

/-! ## main.py: command-line input validation -/

/-- Exception classes raised by main.get_cmd_line_input.  In Python,
FileNotFoundError and FileExistsError are OSError subclasses, disjoint from
ValueError. -/
inductive CmdErr where
  | valueError
  | fileNotFoundError
  | fileExistsError
deriving DecidableEq

/-- The parsed command-line namespace: identifier, record variable, input
path, and the optional output path (argparse leaves it None when omitted). -/
structure CmdInput where
  identifier : String
  record_variable : String
  input_pdf : String
  output_pdf : Option String
deriving DecidableEq

/-- pathlib Path.stem of a path string: the final component without its last
suffix (a leading dot alone does not start a suffix). -/
def pathStem (p : String) : String :=
  let name := (pySplitSlash p).getLastD p
  match pySplitDot name with
  | [] => name
  | [_] => name
  | "" :: rest =>
    if rest.length ≤ 1 then name
    else "." ++ pyJoin "." rest.dropLast
  | parts => pyJoin "." parts.dropLast

/-- main.get_cmd_line_input.  pathExists is the filesystem oracle behind
Path.exists(); now is the formatted datetime.now() stamp used by the default
output path.  Path equality is modelled as string equality.  The warning
printed for a non-.pdf output path has no effect on the result. -/
def get_cmd_line_input (inp : CmdInput) (pathExists : String → Bool) (now : String) :
    Except CmdErr (String × String × String × String) :=
  if !(pyEndsWith inp.input_pdf ".pdf") then Except.error CmdErr.valueError
  else if !(pathExists inp.input_pdf) then Except.error CmdErr.fileNotFoundError
  else
    let output_pdf_path :=
      match inp.output_pdf with
      | none =>
        "./output/" ++ now ++ "_" ++ pathStem inp.input_pdf ++ "_" ++ inp.identifier ++ ".pdf"
      | some s =>
        if s = "" then
          "./output/" ++ now ++ "_" ++ pathStem inp.input_pdf ++ "_" ++ inp.identifier ++ ".pdf"
        else s
    if inp.input_pdf = output_pdf_path then Except.error CmdErr.fileExistsError
    else Except.ok (inp.identifier, inp.record_variable, inp.input_pdf, output_pdf_path)

/-! ## main.py: PDF annotation-tree walks -/

/-- The '/Parent' node of a grouped widget: its '/T' raw string, the key list
of its '/AP' -> '/D' dictionary when present (never consulted by the code),
and its mutable '/V' and '/AP' state. -/
structure ParentNode where
  T : Option String
  ap : Option (Option (List String))
  V : Option Value
  apCleared : Bool
deriving DecidableEq

/-- A PDF annotation node: '/Subtype', raw '/T' string, optional '/Parent',
the key list of its '/AP' -> '/D' dictionary (ap = none models a missing
'/AP', ap = some none a '/AP' without '/D'), and mutable '/V', '/AS', '/AP'
state.  apCleared records the AP='' assignment of the text-field branch. -/
structure Annot where
  subtype : String
  T : Option String
  parent : Option ParentNode
  ap : Option (Option (List String))
  V : Option Value
  AS : Option String
  apCleared : Bool
deriving DecidableEq

/-- A PDF document: pages, each carrying the value of its '/Annots' key
(none when the page has no annotation array). -/
abbrev PdfDoc : Type := List (Option (List Annot))

/-- The checkbox group-name truncation of get_pdf_fields: when the name
contains '___', keep the portion before the first occurrence. -/
def truncateCheckbox (k : String) : String :=
  if 1 < (pySplitUnderscores k).length then (pySplitUnderscores k).headD k else k

/-- The loop body of main.get_pdf_fields for one annotation node: Widget
nodes with a truthy own '/T' contribute their sliced, truncated name;
otherwise the node's '/Parent' is subscripted (TypeError when there is no
parent) and a truthy parent '/T' contributes the sliced, truncated group
name; names are appended only when not already collected. -/
def fieldsStep (result : List String) (a : Annot) : Except PyErr (List String) :=
  if a.subtype = "/Widget" then
    if truthyStr a.T then
      let key := truncateCheckbox (sliceInner (a.T.getD ""))
      if key ∈ result then Except.ok result else Except.ok (result ++ [key])
    else
      match a.parent with
      | none => Except.error PyErr.typeError
      | some p =>
        if truthyStr p.T then
          let group := truncateCheckbox (sliceInner (p.T.getD ""))
          if group ∈ result then Except.ok result else Except.ok (result ++ [group])
        else Except.ok result
  else Except.ok result

/-- main.get_pdf_fields: walk every page and every annotation, accumulating
logical field names in first-seen order. -/
def get_pdf_fields (doc : PdfDoc) : Except PyErr (List String) :=
  List.foldlM (fun result page =>
    match page with
    | none => Except.ok result
    | some annots => List.foldlM fieldsStep result annots) [] doc

/-- The loop body of main.fill_pdf for one annotation node, given the
prepared data dict.  Isolated fields (truthy own '/T') get checkbox Yes/Off
state for boolean values and V plus a cleared AP for anything else; grouped
fields (truthy '/Parent' -> '/T'; TypeError when there is no parent) get
radio handling for non-empty mappings (the first key, as a PdfName, is
matched against the widget's own '/AP' -> '/D' keys; on a miss the node is
left untouched), checkbox handling for booleans, and parent-level text
handling otherwise. -/
def fillAnnot (data : Record) (a : Annot) : Except PyErr Annot :=
  if a.subtype = "/Widget" then
    if truthyStr a.T then
      let key := sliceInner (a.T.getD "")
      match dictGet data key with
      | none => Except.ok a
      | some (Value.bool b) =>
        if b then
          Except.ok { a with AS := some "/Yes", V := some (Value.str "/Yes") }
        else
          Except.ok { a with AS := some "/Off", V := some (Value.str "/Off") }
      | some v => Except.ok { a with apCleared := true, V := some v }
    else
      match a.parent with
      | none => Except.error PyErr.typeError
      | some p =>
        if truthyStr p.T then
          let group := sliceInner (p.T.getD "")
          match dictGet data group with
          | none => Except.ok a
          | some (Value.vmap m) =>
            match m with
            | [] =>
              let p2 := { p with apCleared := true, V := some (Value.vmap []) }
              Except.ok { a with parent := some p2 }
            | (k0, _) :: _ =>
              let selected := "/" ++ k0
              match a.ap with
              | none => Except.error PyErr.typeError
              | some none => Except.error PyErr.attributeError
              | some (some dkeys) =>
                if selected ∈ dkeys then
                  let p2 := { p with V := some (Value.str selected) }
                  Except.ok { a with AS := some selected, parent := some p2 }
                else Except.ok a
          | some (Value.bool b) =>
            if b then
              Except.ok { a with AS := some "/Yes", V := some (Value.str "/Yes") }
            else
              Except.ok { a with AS := some "/Off", V := some (Value.str "/Off") }
          | some v =>
            let p2 := { p with apCleared := true, V := some v }
            Except.ok { a with parent := some p2 }
        else Except.ok a
  else Except.ok a

/-- main.fill_pdf: walk every page and every annotation, mutating widget
state from the data dict.  Output-directory creation, the NeedAppearances
flag and serialization are external file I/O and are not modelled. -/
def fill_pdf (doc : PdfDoc) (data : Record) : Except PyErr PdfDoc :=
  doc.mapM (fun page =>
    match page with
    | none => Except.ok none
    | some annots => do
      let annots2 ← annots.mapM (fillAnnot data)
      Except.ok (some annots2))

/-! ## Specification-side definitions, following the spec's words, used to
state the refinement claims C5 and C6 -/

/-- Spec wording: any name containing '___' is truncated to the portion
before the first occurrence. -/
def specTruncate (k : String) : String :=
  (pySplitUnderscores k).headD k

/-- Spec wording for field discovery: a Widget's logical name is its own
field-name key if present, else its parent's field-name key (both truncated);
a Widget carrying neither is skipped. -/
def specLogicalName (a : Annot) : Option String :=
  if a.subtype = "/Widget" then
    if truthyStr a.T then some (specTruncate (sliceInner (a.T.getD "")))
    else
      match a.parent with
      | some p =>
        if truthyStr p.T then some (specTruncate (sliceInner (p.T.getD ""))) else none
      | none => none
  else none

/-- The logical names of all Widget annotations across all pages, in
traversal order, before de-duplication. -/
def specWidgetNames (doc : PdfDoc) : List String :=
  (doc.map (fun page => (page.getD []).filterMap specLogicalName)).flatten

/-- Append a name unless it is already collected. -/
def insNew (acc : List String) (x : String) : List String :=
  if x ∈ acc then acc else acc ++ [x]

/-- Ordered de-duplication keeping first occurrences. -/
def dedupFirstSeen (l : List String) : List String :=
  l.foldl insNew []

/-- Spec wording for one choice entry: the first ', '-delimited token is the
raw value and the remaining tokens, rejoined with ', ', form the display
text. -/
def specParseEntry (e : String) : String × String :=
  match pySplitCommaSpace e with
  | [] => ("", "")
  | raw :: rest => (raw, pyJoin ", " rest)

/-- Spec wording for a choice-encoding string: split entries on ' | ',
falling back to a bare '|' split when that yields a single token, then enter
each parsed entry into the map. -/
def specChoiceMap (s : String) : List (String × String) :=
  let entries :=
    if (pySplitBarSpaces s).length = 1 then pySplitBar s else pySplitBarSpaces s
  entries.foldl (fun acc e => dictSet acc (specParseEntry e).1 (specParseEntry e).2) []

/-- The staged radio-choice entries of convert_checkboxes_and_radio_buttons,
written as a filterMap (equal to convertStaged whenever the record has no
duplicate keys; Python dicts never do). -/
def stagedSpec (radio_buttons checkboxes : List String) (r : RawRecord) :
    List (String × Value) :=
  r.filterMap (fun kv =>
    if isCheckboxKey checkboxes kv.1 then none
    else if kv.1 ∈ radio_buttons then
      if kv.2 ≠ "" then
        some (kv.1 ++ RADIO_BUTTON_CHOICE_SUFFIX, Value.str kv.2)
      else none
    else none)

/-! ## Concrete instances used by counterexamples and witnesses -/

/-- A radio-group parent node that itself declares the appearance state '/2'. -/
def cexParent : ParentNode := ⟨some "(g)", some (some ["/2"]), none, false⟩

/-- A grouped radio widget whose own appearance dictionary only declares
'/Off', while its parent declares '/2'. -/
def cexWidget : Annot := ⟨"/Widget", none, some cexParent, some (some ["/Off"]), none, none, false⟩

/-- A normalized record selecting raw value '2' for group 'g'. -/
def cexData : Record := [("g", Value.vmap [("2", RVal.bool true)])]

/-- A Widget annotation with neither a '/T' key nor a '/Parent' key. -/
def orphanWidget : Annot := ⟨"/Widget", none, none, none, none, none, false⟩

/-- A grouped widget whose parent carries no field name. -/
def namelessParentWidget : Annot :=
  ⟨"/Widget", none, some ⟨none, none, none, false⟩, none, none, none, false⟩

/-- A one-page document with two checkbox widgets of the same group and one
grouped widget, used to exercise discovery order and de-duplication. -/
def wdoc : PdfDoc :=
  [some [⟨"/Widget", some "(cb_1___3)", none, none, none, none, false⟩,
         ⟨"/Widget", some "(cb_1___7)", none, none, none, none, false⟩,
         ⟨"/Widget", none, some ⟨some "(g)", none, none, false⟩, none, none, none, false⟩]]

/-! ## Dictionary lemmas -/

theorem dictGet_dictSet_self {α : Type} (d : List (String × α)) (k : String) (v : α) :
    dictGet (dictSet d k v) k = some v := by
  induction d with
  | nil => simp [dictGet, dictSet]
  | cons kv t ih =>
    by_cases h : kv.1 = k
    · simp [dictSet, h, dictGet]
    · simp only [dictSet]
      rw [if_neg]
      · simp only [dictGet]
        rw [if_neg h]
        exact ih
      · exact h

theorem dictGet_dictSet_ne {α : Type} (d : List (String × α)) (k key : String) (v : α)
    (hne : k ≠ key) : dictGet (dictSet d key v) k = dictGet d k := by
  induction d with
  | nil =>
    simp only [dictSet, dictGet]
    rw [if_neg fun hx => hne hx.symm]
  | cons kv t ih =>
    by_cases h : kv.1 = key
    · simp only [dictSet, if_pos h, dictGet]
      rw [if_neg, if_neg]
      · rw [h]; exact fun hx => hne hx.symm
      · exact fun hx => hne hx.symm
    · simp only [dictSet, if_neg h, dictGet]
      by_cases h2 : kv.1 = k
      · rw [if_pos h2, if_pos h2]
      · rw [if_neg h2, if_neg h2]
        exact ih

theorem dictSet_append_of_not_mem {α : Type} (d : List (String × α)) (k : String) (v : α)
    (h : k ∉ d.map Prod.fst) : dictSet d k v = d ++ [(k, v)] := by
  induction d with
  | nil => simp [dictSet]
  | cons kv t ih =>
    simp only [List.map_cons, List.mem_cons] at h
    push_neg at h
    simp only [dictSet]
    rw [if_neg fun hx => h.1 hx.symm]
    rw [ih h.2]
    simp

theorem dictGet_eq_none_of_not_mem {α : Type} (d : List (String × α)) (k : String)
    (h : k ∉ d.map Prod.fst) : dictGet d k = none := by
  induction d with
  | nil => rfl
  | cons kv t ih =>
    simp only [List.map_cons, List.mem_cons] at h
    push_neg at h
    simp only [dictGet]
    rw [if_neg fun hx => h.1 hx.symm]
    exact ih h.2

theorem dictGet_of_mem_nodup {α : Type} (d : List (String × α)) (k : String) (v : α)
    (hmem : (k, v) ∈ d) (hnd : (d.map Prod.fst).Nodup) : dictGet d k = some v := by
  induction d with
  | nil => cases hmem
  | cons kv t ih =>
    simp only [List.map_cons, List.nodup_cons] at hnd
    rcases List.mem_cons.mp hmem with h | h
    · rw [← h]
      simp [dictGet]
    · have hk : k ∈ t.map Prod.fst := List.mem_map.mpr ⟨(k, v), h, rfl⟩
      simp only [dictGet]
      rw [if_neg]
      · exact ih h hnd.2
      · intro hx
        rw [hx] at hnd
        exact hnd.1 hk

theorem value_unique_of_nodup {α : Type} (d : List (String × α)) (k : String) (v v' : α)
    (h1 : (k, v) ∈ d) (h2 : (k, v') ∈ d) (hnd : (d.map Prod.fst).Nodup) : v = v' := by
  have e1 := dictGet_of_mem_nodup d k v h1 hnd
  have e2 := dictGet_of_mem_nodup d k v' h2 hnd
  rw [e1] at e2
  exact Option.some.inj e2

theorem dictGet_map_entry {α β : Type} (d : List (String × α)) (f : String → α → β)
    (k : String) :
    dictGet (d.map (fun kv => (kv.1, f kv.1 kv.2))) k = Option.map (f k) (dictGet d k) := by
  induction d with
  | nil => rfl
  | cons kv t ih =>
    simp only [List.map_cons, dictGet]
    by_cases h : kv.1 = k
    · rw [if_pos h, if_pos h, h]
      rfl
    · rw [if_neg h, if_neg h]
      exact ih

theorem dictUpdate_get_of_not_mem {α : Type} (d s : List (String × α)) (k : String)
    (h : k ∉ s.map Prod.fst) : dictGet (dictUpdate d s) k = dictGet d k := by
  induction s generalizing d with
  | nil => rfl
  | cons kv t ih =>
    simp only [List.map_cons, List.mem_cons] at h
    push_neg at h
    simp only [dictUpdate, List.foldl_cons]
    have := ih (dictSet d kv.1 kv.2) h.2
    simp only [dictUpdate] at this
    rw [this]
    exact dictGet_dictSet_ne d k kv.1 kv.2 h.1

theorem dictUpdate_get_of_mem_nodup {α : Type} (d s : List (String × α)) (k : String)
    (v : α) (hmem : (k, v) ∈ s) (hnd : (s.map Prod.fst).Nodup) :
    dictGet (dictUpdate d s) k = some v := by
  induction s generalizing d with
  | nil => cases hmem
  | cons kv t ih =>
    simp only [List.map_cons, List.nodup_cons] at hnd
    simp only [dictUpdate, List.foldl_cons]
    rcases List.mem_cons.mp hmem with h | h
    · have hnot : k ∉ t.map Prod.fst := by
        rw [← h] at hnd
        exact hnd.1
      have := dictUpdate_get_of_not_mem (dictSet d kv.1 kv.2) t k hnot
      simp only [dictUpdate] at this
      rw [this, ← h]
      exact dictGet_dictSet_self d k v
    · have := ih (dictSet d kv.1 kv.2) h hnd.2
      simp only [dictUpdate] at this
      exact this

theorem mem_extract_field (md : List FieldMeta) (f : FieldMeta) (t : String)
    (hmem : f ∈ md) (hty : f.field_type = t) : f.field_name ∈ extract_field md t := by
  simp only [extract_field, List.mem_filterMap]
  exact ⟨f, hmem, by rw [if_pos hty]⟩

/-! ## Monadic fold and string lemmas -/

theorem foldlM_except_ok_cons {ε α β : Type} {f : β → α → Except ε β} {b : β} {a : α}
    {l : List α} {out : β} (h : List.foldlM f b (a :: l) = Except.ok out) :
    ∃ b2, f b a = Except.ok b2 ∧ List.foldlM f b2 l = Except.ok out := by
  rw [List.foldlM_cons] at h
  cases hfa : f b a with
  | error e =>
    rw [hfa] at h
    exact absurd h (by simp [Bind.bind, Except.bind])
  | ok b2 =>
    rw [hfa] at h
    exact ⟨b2, rfl, by simpa [Bind.bind, Except.bind] using h⟩

theorem foldlM_except_error_cons {ε α β : Type} {f : β → α → Except ε β} {b : β} {a : α}
    {l : List α} {e : ε} (h : f b a = Except.error e) :
    List.foldlM f b (a :: l) = Except.error e := by
  rw [List.foldlM_cons, h]
  rfl

theorem foldlM_except_nil_ok {ε α β : Type} {f : β → α → Except ε β} {b out : β}
    (h : List.foldlM f b ([] : List α) = Except.ok out) : out = b := by
  simp only [List.foldlM_nil] at h
  exact (Except.ok.inj h).symm

theorem string_data_append (a b : String) : (a ++ b).data = a.data ++ b.data := rfl

theorem string_append_cancel_right (a b c : String) (h : a ++ c = b ++ c) : a = b := by
  cases a with
  | mk da =>
    cases b with
    | mk db =>
      cases c with
      | mk dc =>
        have hd : da ++ dc = db ++ dc := congrArg String.data h
        rw [List.append_cancel_right hd]

theorem pyEndsWith_append_self (a sfx : String) : pyEndsWith (a ++ sfx) sfx = true := by
  simp only [pyEndsWith, string_data_append, decide_eq_true_eq]
  exact List.suffix_append a.data sfx.data

theorem splitOnTriple_ne_nil (c1 c2 c3 : Char) (l : List Char) :
    splitOnTriple c1 c2 c3 l ≠ [] := by
  match l with
  | [] => simp [splitOnTriple]
  | [a] => simp [splitOnTriple]
  | [a, b] => simp [splitOnTriple]
  | a :: b :: c :: rest =>
    simp only [splitOnTriple]
    split
    · simp
    · split <;> simp

theorem splitOnPair_ne_nil (c1 c2 : Char) (l : List Char) :
    splitOnPair c1 c2 l ≠ [] := by
  match l with
  | [] => simp [splitOnPair]
  | [a] => simp [splitOnPair]
  | a :: b :: rest =>
    simp only [splitOnPair]
    split
    · simp
    · split <;> simp

theorem splitOnTriple_singleton (c1 c2 c3 : Char) :
    ∀ (l x : List Char), splitOnTriple c1 c2 c3 l = [x] → x = l
  | [], x, h => by
    simp only [splitOnTriple] at h
    exact (List.cons.inj h).1.symm
  | [a], x, h => by
    simp only [splitOnTriple] at h
    exact (List.cons.inj h).1.symm
  | [a, b], x, h => by
    simp only [splitOnTriple] at h
    exact (List.cons.inj h).1.symm
  | a :: b :: c :: rest, x, h => by
    simp only [splitOnTriple] at h
    split at h
    · have h2 := (List.cons.inj h).2
      exact absurd h2 (splitOnTriple_ne_nil c1 c2 c3 rest)
    · rename_i hcond
      cases hm : splitOnTriple c1 c2 c3 (b :: c :: rest) with
      | nil => exact absurd hm (splitOnTriple_ne_nil c1 c2 c3 (b :: c :: rest))
      | cons h0 t =>
        rw [hm] at h
        have hx := (List.cons.inj h).1
        have ht := (List.cons.inj h).2
        have ht2 : t = [] := by
          cases t with
          | nil => rfl
          | cons u us => cases ht
        rw [ht2] at hm
        have := splitOnTriple_singleton c1 c2 c3 (b :: c :: rest) h0 hm
        rw [← hx, this]

theorem pySplitUnderscores_headD_self (k : String)
    (h : ¬ 1 < (pySplitUnderscores k).length) : (pySplitUnderscores k).headD k = k := by
  have hne : splitOnTriple '_' '_' '_' k.data ≠ [] := splitOnTriple_ne_nil _ _ _ _
  cases hs : splitOnTriple '_' '_' '_' k.data with
  | nil => exact absurd hs hne
  | cons x t =>
    cases t with
    | nil =>
      have hx : x = k.data := splitOnTriple_singleton '_' '_' '_' k.data x hs
      simp only [pySplitUnderscores, hs, List.map_cons, List.map_nil, List.headD_cons]
      rw [hx]
    | cons y ys =>
      rw [pySplitUnderscores, hs] at h
      simp at h

theorem truncateCheckbox_eq_spec (k : String) : truncateCheckbox k = specTruncate k := by
  unfold truncateCheckbox specTruncate
  by_cases h : 1 < (pySplitUnderscores k).length
  · rw [if_pos h]
  · rw [if_neg h, pySplitUnderscores_headD_self k h]

/-! ## Claim C9 -/

/-- Claim C9, counterexample to the claim as stated: with identical input
and output paths the validation fails with FileExistsError (an OSError), not
with a ValueError-class error. -/
theorem C9_counterexample :
    get_cmd_line_input ⟨"7", "record_id", "a.pdf", some "a.pdf"⟩ (fun _ => true) "TS"
      = Except.error CmdErr.fileExistsError ∧
    CmdErr.fileExistsError ≠ CmdErr.valueError :=
  ⟨rfl, by decide⟩

/-- Claim C9, amended: for every command-line input with a well-formed and
existing template path whose explicit output path is identical to the input
path, input validation fails with a FileExistsError-class (OSError) error,
before any network I/O or file content I/O. -/
theorem C9_identical_paths_error
    (identifier record_variable input_pdf out now : String)
    (pathExists : String → Bool)
    (hpdf : pyEndsWith input_pdf ".pdf" = true)
    (hex : pathExists input_pdf = true)
    (hout : out ≠ "")
    (heq : input_pdf = out) :
    get_cmd_line_input ⟨identifier, record_variable, input_pdf, some out⟩ pathExists now
      = Except.error CmdErr.fileExistsError := by
  simp only [get_cmd_line_input, hpdf, hex, Bool.not_true, Bool.false_eq_true, if_false]
  rw [if_neg hout, if_pos heq]

/-- Claim C9, witness for the amended theorem at a concrete input. -/
theorem C9_identical_paths_error_witness :
    get_cmd_line_input ⟨"9", "record_id", "b.pdf", some "b.pdf"⟩ (fun _ => true) "TS"
      = Except.error CmdErr.fileExistsError :=
  C9_identical_paths_error "9" "record_id" "b.pdf" "b.pdf" "TS" (fun _ => true)
    (by decide) rfl (by decide) rfl

/-! ## Claim C8 -/

/-- Claim C8, counterexample to the claim as stated: on an API error payload
the record fetch prints the message and exits the process (exit(1)); the
outcome is the process-exit constructor, not one of the raising ones. -/
theorem C8_counterexample :
    get_record (RecResponse.dict [("error", "bad")]) "record_id" "5"
      = FetchOutcome.exitProcess "REDCap API returned an error while fetching record 5: bad" ∧
    FetchOutcome.exitProcess "REDCap API returned an error while fetching record 5: bad"
      ≠ FetchOutcome.raiseLookupError
          "REDCap API returned an error while fetching record 5: bad" ∧
    FetchOutcome.exitProcess "REDCap API returned an error while fetching record 5: bad"
      ≠ FetchOutcome.raiseKeyError :=
  ⟨rfl, by decide, by decide⟩

/-- Claim C8, amended: the record fetch raises a LookupError naming the
identifier field and value when the result list holds zero or more than one
record, returns the single record otherwise, and on an API error payload it
prints the API's error message and exits the process (like the metadata
fetch) instead of raising. -/
theorem C8_get_record_behavior (ident recId : String) :
    (get_record (RecResponse.list []) ident recId
       = FetchOutcome.raiseLookupError
           ("No records found where '" ++ ident ++ "' = " ++ recId)) ∧
    (∀ r0 r1 rest, get_record (RecResponse.list (r0 :: r1 :: rest)) ident recId
       = FetchOutcome.raiseLookupError
           ("Multiple records found where '" ++ ident ++ "' = " ++ recId
             ++ " (expected only 1)")) ∧
    (∀ r0, get_record (RecResponse.list [r0]) ident recId = FetchOutcome.ok r0) ∧
    (∀ payload e, dictGet payload "error" = some e → e ≠ "" →
       get_record (RecResponse.dict payload) ident recId
         = FetchOutcome.exitProcess
             ("REDCap API returned an error while fetching record " ++ recId ++ ": " ++ e)) := by
  refine ⟨rfl, fun r0 r1 rest => rfl, fun r0 => rfl, fun payload e hget hne => ?_⟩
  simp only [get_record, hget]
  rw [if_pos hne]

/-- Claim C8, witness discharging the error-payload hypotheses of the
amended theorem at a concrete input. -/
theorem C8_get_record_behavior_witness :
    get_record (RecResponse.dict [("error", "oops")]) "subject_id" "9"
      = FetchOutcome.exitProcess
          "REDCap API returned an error while fetching record 9: oops" :=
  (C8_get_record_behavior "subject_id" "9").2.2.2 [("error", "oops")] "oops" rfl (by decide)

/-! ## Claim C7 -/

/-- Claim C7, counterexample to the claim as stated: a Widget annotation
carrying neither its own field-name key nor any parent makes both walks
subscript a missing '/Parent' and fail with a TypeError-class error instead
of skipping it. -/
theorem C7_counterexample :
    get_pdf_fields [some [orphanWidget]] = Except.error PyErr.typeError ∧
    fill_pdf [some [orphanWidget]] [] = Except.error PyErr.typeError :=
  ⟨rfl, rfl⟩

/-- Claim C7, amended: a Widget annotation with no (truthy) own field-name
key whose parent reference exists but carries no (truthy) field-name key is
skipped by both walks without error, leaving the accumulated field list and
the node unchanged; a Widget with no own field-name key and no parent at all
instead raises a TypeError-class error in both walks. -/
theorem C7_nameless_widgets_skipped
    (a : Annot) (p : ParentNode)
    (hsub : a.subtype = "/Widget") (hT : truthyStr a.T = false)
    (hp : a.parent = some p) (hpT : truthyStr p.T = false) :
    (∀ acc, fieldsStep acc a = Except.ok acc) ∧
    (∀ data, fillAnnot data a = Except.ok a) := by
  constructor
  · intro acc
    simp [fieldsStep, hsub, hT, hp, hpT]
  · intro data
    simp [fillAnnot, hsub, hT, hp, hpT]

/-- Claim C7, witness for the amended theorem at a concrete widget. -/
theorem C7_nameless_widgets_skipped_witness :
    fieldsStep ["x"] namelessParentWidget = Except.ok ["x"] ∧
    fillAnnot [] namelessParentWidget = Except.ok namelessParentWidget := by
  have h := C7_nameless_widgets_skipped namelessParentWidget ⟨none, none, none, false⟩
    rfl rfl rfl rfl
  exact ⟨h.1 ["x"], h.2 []⟩

/-! ## Claim C2 -/

/-- Claim C2, counterexample to the claim as stated: the chosen raw value
'2' does exist among the parent's declared appearance states, yet the widget
(whose own appearance dictionary only declares '/Off') is left entirely
untouched: neither its appearance-state nor the parent's value is set.  The
code consults the widget's own '/AP' -> '/D' keys, not the parent's. -/
theorem C2_counterexample :
    fillAnnot cexData cexWidget = Except.ok cexWidget ∧
    cexWidget.parent = some cexParent ∧
    cexParent.ap = some (some ["/2"]) ∧
    cexWidget.ap = some (some ["/Off"]) ∧
    cexWidget.AS = none ∧
    cexParent.V = none :=
  ⟨rfl, rfl, rfl, rfl, rfl, rfl⟩

/-- Claim C2, amended: for a grouped widget whose group name maps to a
non-empty (single-key) mapping, the single key is the chosen raw value; if
that raw value exists among the widget's own declared appearance states (the
keys of its '/AP' -> '/D' dictionary, compared as PdfNames), the parent's
value and the widget's appearance-state are both set to it; otherwise the
widget is left entirely untouched and no error is raised. -/
theorem C2_grouped_radio_fill
    (data : Record) (a : Annot) (p : ParentNode) (k : String) (rv : RVal)
    (dkeys : List String)
    (hsub : a.subtype = "/Widget") (hT : truthyStr a.T = false)
    (hp : a.parent = some p) (hpT : truthyStr p.T = true)
    (hget : dictGet data (sliceInner (p.T.getD "")) = some (Value.vmap [(k, rv)]))
    (hap : a.ap = some (some dkeys)) :
    (("/" ++ k) ∈ dkeys →
       fillAnnot data a = Except.ok
         ⟨a.subtype, a.T, some ⟨p.T, p.ap, some (Value.str ("/" ++ k)), p.apCleared⟩,
          a.ap, a.V, some ("/" ++ k), a.apCleared⟩) ∧
    (("/" ++ k) ∉ dkeys → fillAnnot data a = Except.ok a) := by
  constructor
  · intro hmem
    simp [fillAnnot, hsub, hT, hp, hpT, hget, hap, hmem]
  · intro hmem
    simp [fillAnnot, hsub, hT, hp, hpT, hget, hap, hmem]

/-- Claim C2, witness for the amended theorem: a concrete grouped widget
whose own appearance dictionary declares '/Off' and '/2' gets its
appearance-state, and its parent's value, set to '/2'. -/
theorem C2_grouped_radio_fill_witness :
    fillAnnot [("g", Value.vmap [("2", RVal.bool true)])]
        ⟨"/Widget", none, some ⟨some "(g)", none, none, false⟩,
         some (some ["/Off", "/2"]), none, none, false⟩
      = Except.ok
        ⟨"/Widget", none, some ⟨some "(g)", none, some (Value.str "/2"), false⟩,
         some (some ["/Off", "/2"]), none, some "/2", false⟩ := by
  have h := (C2_grouped_radio_fill [("g", Value.vmap [("2", RVal.bool true)])]
    ⟨"/Widget", none, some ⟨some "(g)", none, none, false⟩,
     some (some ["/Off", "/2"]), none, none, false⟩
    ⟨some "(g)", none, none, false⟩ "2" (RVal.bool true) ["/Off", "/2"]
    rfl rfl rfl rfl rfl rfl).1 (by decide)
  exact h

/-! ## Claim C10 -/

theorem dropdownStep_absent (texts : List (String × List (String × String)))
    (r : Record) (f : FieldMeta) (hty : f.field_type = "dropdown")
    (habs : dictGet r f.field_name = none) :
    dropdownStep texts r f = Except.error PyErr.keyError := by
  simp [dropdownStep, hty, habs]

theorem collapseStep_absent (r : Record) (g : String) (habs : dictGet r g = none) :
    collapseStep r g = Except.error PyErr.keyError := by
  simp [collapseStep, habs]

theorem dropdownStep_preserves_absent (texts : List (String × List (String × String)))
    (r : Record) (f : FieldMeta) (k : String) (habs : dictGet r k = none)
    (r2 : Record) (h : dropdownStep texts r f = Except.ok r2) : dictGet r2 k = none := by
  simp only [dropdownStep] at h
  split at h
  · split at h
    · cases h
    · rename_i v hv
      split at h
      · split at h
        · cases h
        · split at h
          · split at h
            · cases h
            · rename_i t ht
              have hr2 := Except.ok.inj h
              have hne : k ≠ f.field_name := by
                intro hx
                rw [hx, hv] at habs
                cases habs
              rw [← hr2]
              rw [dictGet_dictSet_ne r k f.field_name (Value.str t) hne]
              exact habs
          · cases h
          · cases h
      · rw [← Except.ok.inj h]
        exact habs
  · rw [← Except.ok.inj h]
    exact habs

theorem collapseStep_preserves_absent (r : Record) (g k : String)
    (habs : dictGet r k = none) (r2 : Record)
    (h : collapseStep r g = Except.ok r2) : dictGet r2 k = none := by
  simp only [collapseStep] at h
  split at h
  · cases h
  · cases h
  · cases h
  · rename_i m hm
    split at h
    · cases h
    · split at h
      · cases h
      · have hne : k ≠ g := by
          intro hx
          rw [hx, hm] at habs
          cases habs
        split at h
        · split at h
          · rename_i kv hkv
            rw [← Except.ok.inj h]
            rw [dictGet_dictSet_ne r k g (Value.vmap [(kv.1, kv.2)]) hne]
            exact habs
          · rw [← Except.ok.inj h]
            exact habs
        · rw [← Except.ok.inj h]
          exact habs

theorem foldlM_dropdown_no_ok (texts : List (String × List (String × String)))
    (l : List FieldMeta) (r : Record) (f : FieldMeta)
    (hmem : f ∈ l) (hty : f.field_type = "dropdown")
    (habs : dictGet r f.field_name = none) :
    ∀ r2, List.foldlM (dropdownStep texts) r l ≠ Except.ok r2 := by
  induction l generalizing r with
  | nil => cases hmem
  | cons g rest ih =>
    intro r2 h
    obtain ⟨r1, hg, hrest⟩ := foldlM_except_ok_cons h
    rcases List.mem_cons.mp hmem with heq | hmem2
    · rw [← heq] at hg
      rw [dropdownStep_absent texts r f hty habs] at hg
      cases hg
    · exact ih r1 hmem2
        (dropdownStep_preserves_absent texts r g f.field_name habs r1 hg) r2 hrest

theorem foldlM_collapse_no_ok (l : List String) (r : Record) (g : String)
    (hmem : g ∈ l) (habs : dictGet r g = none) :
    ∀ r2, List.foldlM collapseStep r l ≠ Except.ok r2 := by
  induction l generalizing r with
  | nil => cases hmem
  | cons g0 rest ih =>
    intro r2 h
    obtain ⟨r1, hg, hrest⟩ := foldlM_except_ok_cons h
    rcases List.mem_cons.mp hmem with heq | hmem2
    · rw [← heq] at hg
      rw [collapseStep_absent r g habs] at hg
      cases hg
    · exact ih r1 hmem2 (collapseStep_preserves_absent r g0 g habs r1 hg) r2 hrest

/-- Claim C10: the normalizer requires a record entry for every field
declared as type 'dropdown' or 'radio': processing such a field with no
record entry raises a KeyError-class lookup failure (shown on the
single-field metadata), and with the field anywhere in the metadata the
corresponding stage can never succeed. -/
theorem C10_missing_record_entries
    (md : List FieldMeta) (r : Record) (f : FieldMeta)
    (hmem : f ∈ md) (habs : dictGet r f.field_name = none) :
    (f.field_type = "dropdown" →
       convert_dropdowns_to_strings r [f] = Except.error PyErr.keyError ∧
       ∀ r2, convert_dropdowns_to_strings r md ≠ Except.ok r2) ∧
    (f.field_type = "radio" →
       collapse_radio_groups r [f] = Except.error PyErr.keyError ∧
       ∀ r2, collapse_radio_groups r md ≠ Except.ok r2) := by
  constructor
  · intro hty
    constructor
    · exact foldlM_except_error_cons
        (dropdownStep_absent (get_multiple_choice_text [f]) r f hty habs)
    · exact foldlM_dropdown_no_ok (get_multiple_choice_text md) md r f hmem hty habs
  · intro hty
    constructor
    · have hgrp : extract_field [f] "radio" = [f.field_name] := by
        simp [extract_field, hty]
      unfold collapse_radio_groups
      rw [hgrp]
      exact foldlM_except_error_cons (collapseStep_absent r f.field_name habs)
    · intro r2
      exact foldlM_collapse_no_ok (extract_field md "radio") r f.field_name
        (mem_extract_field md f "radio" hmem hty) habs r2

/-- Claim C10, witness: a record with no entry for the radio field rg1 makes
radio-group collapse fail with a KeyError-class error. -/
theorem C10_missing_record_entries_witness :
    collapse_radio_groups [] [⟨"rg1", "radio", ""⟩] = Except.error PyErr.keyError :=
  ((C10_missing_record_entries [⟨"rg1", "radio", ""⟩] [] ⟨"rg1", "radio", ""⟩
      (by simp) rfl).2 rfl).1

/-! ## Claim C4 -/

/-- Claim C4: for a radio-group field whose record value is a mapping,
collapse raises TypeError when any mapping value is non-boolean, ValueError
when the count of True values differs from one, and otherwise, when the
mapping has more than one entry, replaces it by the single entry carrying
True (the first such entry in insertion order). -/
theorem C4_collapse_validation
    (r : Record) (g : String) (m : List (String × RVal))
    (hget : dictGet r g = some (Value.vmap m)) :
    ((∃ p2 ∈ m, rvalIsBool p2.2 = false) →
       collapseStep r g = Except.error PyErr.typeError) ∧
    ((∀ p2 ∈ m, rvalIsBool p2.2 = true) →
       (m.map Prod.snd).countP (fun x => rvalIsTrue x) ≠ 1 →
       collapseStep r g = Except.error PyErr.valueError) ∧
    ((∀ p2 ∈ m, rvalIsBool p2.2 = true) →
       (m.map Prod.snd).countP (fun x => rvalIsTrue x) = 1 →
       1 < m.length →
       ∃ k, m.find? (fun kv => rvalIsTrue kv.2) = some (k, RVal.bool true) ∧
         collapseStep r g
           = Except.ok (dictSet r g (Value.vmap [(k, RVal.bool true)]))) := by
  refine ⟨?_, ?_, ?_⟩
  · intro hex
    have hany : (m.map Prod.snd).any (fun x => !(rvalIsBool x)) = true := by
      rcases hex with ⟨p2, hp2, hb⟩
      refine List.any_eq_true.mpr ⟨p2.2, List.mem_map.mpr ⟨p2, hp2, rfl⟩, ?_⟩
      rw [hb]
      rfl
    simp [collapseStep, hget, hany]
  · intro hall hcnt
    have hany : (m.map Prod.snd).any (fun x => !(rvalIsBool x)) = false := by
      rw [List.any_eq_false]
      intro x hx
      rcases List.mem_map.mp hx with ⟨p2, hp2, hpx⟩
      rw [← hpx, hall p2 hp2]
      simp
    simp only [collapseStep, hget]
    simp [hany]
    intro hc
    rw [← List.countP_map] at hc
    exact absurd hc hcnt
  · intro hall hcnt hlen
    have hany : (m.map Prod.snd).any (fun x => !(rvalIsBool x)) = false := by
      rw [List.any_eq_false]
      intro x hx
      rcases List.mem_map.mp hx with ⟨p2, hp2, hpx⟩
      rw [← hpx, hall p2 hp2]
      simp
    cases hfind : m.find? (fun kv => rvalIsTrue kv.2) with
    | none =>
      exfalso
      have hzero : m.countP (fun kv => rvalIsTrue kv.2) = 0 :=
        List.countP_eq_zero.mpr (by
          intro kv hkv
          have := List.find?_eq_none.mp hfind kv hkv
          simpa using this)
      rw [List.countP_map] at hcnt
      have : m.countP (fun kv => rvalIsTrue kv.2) = 1 := hcnt
      rw [hzero] at this
      cases this
    | some kv =>
      have htrue0 := List.find?_some hfind
      have htrue : rvalIsTrue kv.2 = true := htrue0
      have hkv2 : kv.2 = RVal.bool true := by
        cases h2 : kv.2 with
        | str s => rw [h2] at htrue; cases htrue
        | bool b =>
          rw [h2] at htrue
          cases b with
          | false => cases htrue
          | true => rfl
      refine ⟨kv.1, ?_, ?_⟩
      · cases kv
        simp only at hkv2
        rw [hkv2]
      · simp [collapseStep, hget, hany, hcnt, hlen, hfind, hkv2]

/-- Claim C4, witness: a two-entry radio group with values False and True
collapses to the single True entry. -/
theorem C4_collapse_validation_witness :
    ∃ k, collapseStep [("g", Value.vmap [("a", RVal.bool false), ("b", RVal.bool true)])] "g"
      = Except.ok (dictSet [("g", Value.vmap [("a", RVal.bool false), ("b", RVal.bool true)])]
          "g" (Value.vmap [(k, RVal.bool true)])) := by
  obtain ⟨k, hfind, hstep⟩ :=
    (C4_collapse_validation [("g", Value.vmap [("a", RVal.bool false), ("b", RVal.bool true)])]
      "g" [("a", RVal.bool false), ("b", RVal.bool true)] rfl).2.2
      (by decide) (by decide) (by decide)
  exact ⟨k, hstep⟩

/-! ## Claim C1 -/

theorem collapseStep_ok_result (r : Record) (g : String) (r2 : Record)
    (h : collapseStep r g = Except.ok r2) :
    ∃ k, dictGet r2 g = some (Value.vmap [(k, RVal.bool true)]) := by
  simp only [collapseStep] at h
  split at h
  · cases h
  · cases h
  · cases h
  · rename_i m hm
    split at h
    · cases h
    · split at h
      · cases h
      · rename_i hb hcnt
        have hcnt2 : (m.map Prod.snd).countP (fun x => rvalIsTrue x) = 1 := by
          simpa using hcnt
        split at h
        · rename_i hlen
          split at h
          · rename_i kv hfind
            have htrue0 := List.find?_some hfind
            have htrue : rvalIsTrue kv.2 = true := htrue0
            cases kv with
            | mk kf ks =>
              simp only at htrue
              have hks : ks = RVal.bool true := by
                cases h2 : ks with
                | str s => rw [h2] at htrue; cases htrue
                | bool b =>
                  rw [h2] at htrue
                  cases b with
                  | false => cases htrue
                  | true => rfl
              rw [hks] at h
              have hr2 := Except.ok.inj h
              refine ⟨kf, ?_⟩
              rw [← hr2]
              exact dictGet_dictSet_self r g (Value.vmap [(kf, RVal.bool true)])
          · rename_i hfind
            exfalso
            have hzero : m.countP (fun kv => rvalIsTrue kv.2) = 0 :=
              List.countP_eq_zero.mpr (by
                intro kv hkv
                have := List.find?_eq_none.mp hfind kv hkv
                simpa using this)
            rw [List.countP_map] at hcnt2
            have : m.countP (fun kv => rvalIsTrue kv.2) = 1 := hcnt2
            rw [hzero] at this
            cases this
        · rename_i hlen
          have hr2 : r2 = r := (Except.ok.inj h).symm
          have hlen1 : m.length = 1 := by
            have hle := List.countP_le_length (fun x => rvalIsTrue x)
              (l := m.map Prod.snd)
            rw [hcnt2, List.length_map] at hle
            omega
          obtain ⟨kv, hkv⟩ := List.length_eq_one.mp hlen1
          cases kv with
          | mk kf ks =>
            have hks : rvalIsTrue ks = true := by
              rw [hkv] at hcnt2
              simp only [List.map_cons, List.map_nil, List.countP_cons,
                List.countP_nil] at hcnt2
              by_cases hb2 : rvalIsTrue ks = true
              · exact hb2
              · rw [if_neg (by simpa using hb2)] at hcnt2
                cases hcnt2
            have hks2 : ks = RVal.bool true := by
              cases h2 : ks with
              | str s => rw [h2] at hks; cases hks
              | bool b =>
                rw [h2] at hks
                cases b with
                | false => cases hks
                | true => rfl
            refine ⟨kf, ?_⟩
            rw [hr2, hm, hkv, hks2]

theorem collapseStep_ok_other (r : Record) (g g2 : String) (r2 : Record)
    (h : collapseStep r g = Except.ok r2) (hne : g2 ≠ g) :
    dictGet r2 g2 = dictGet r g2 := by
  simp only [collapseStep] at h
  split at h
  · cases h
  · cases h
  · cases h
  · split at h
    · cases h
    · split at h
      · cases h
      · split at h
        · split at h
          · rename_i kv hfind
            rw [← Except.ok.inj h]
            exact dictGet_dictSet_ne r g2 g (Value.vmap [(kv.1, kv.2)]) hne
          · rw [← Except.ok.inj h]
        · rw [← Except.ok.inj h]

theorem collapse_fold_preserves (l : List String) (r r2 : Record) (g : String)
    (h : List.foldlM collapseStep r l = Except.ok r2)
    (hP : ∃ k, dictGet r g = some (Value.vmap [(k, RVal.bool true)])) :
    ∃ k, dictGet r2 g = some (Value.vmap [(k, RVal.bool true)]) := by
  induction l generalizing r with
  | nil => rw [foldlM_except_nil_ok h]; exact hP
  | cons g0 rest ih =>
    obtain ⟨r1, h0, hrest⟩ := foldlM_except_ok_cons h
    by_cases hg : g = g0
    · subst hg
      exact ih r1 hrest (collapseStep_ok_result r _ r1 h0)
    · refine ih r1 hrest ?_
      rw [collapseStep_ok_other r g0 g r1 h0 hg]
      exact hP

theorem collapse_fold_mem (l : List String) (r r2 : Record)
    (h : List.foldlM collapseStep r l = Except.ok r2) :
    ∀ g ∈ l, ∃ k, dictGet r2 g = some (Value.vmap [(k, RVal.bool true)]) := by
  induction l generalizing r with
  | nil => intro g hg; cases hg
  | cons g0 rest ih =>
    intro g hg
    obtain ⟨r1, h0, hrest⟩ := foldlM_except_ok_cons h
    rcases List.mem_cons.mp hg with heq | hmem
    · rw [heq]
      exact collapse_fold_preserves rest r1 r2 g0 hrest
        (collapseStep_ok_result r g0 r1 h0)
    · exact ih r1 hrest g hmem

/-- Claim C1: whenever the full normalization pipeline (checkbox/radio
conversion, then dropdown conversion, then radio-group collapse) accepts a
raw record without error, every field declared with type 'radio' in the
metadata maps in the result to a mapping with exactly one key whose value is
True. -/
theorem C1_radio_invariant (record : RawRecord) (md : List FieldMeta) (r2 : Record)
    (h : prepare_for_fill record md = Except.ok r2) :
    ∀ f ∈ md, f.field_type = "radio" →
      ∃ k, dictGet r2 f.field_name = some (Value.vmap [(k, RVal.bool true)]) := by
  intro f hf hty
  unfold prepare_for_fill at h
  cases hd : convert_dropdowns_to_strings (convert_checkboxes_and_radio_buttons record md) md with
  | error e => rw [hd] at h; cases h
  | ok r1 =>
    rw [hd] at h
    exact collapse_fold_mem (extract_field md "radio") r1 r2 h f.field_name
      (mem_extract_field md f "radio" hf hty)

/-- Claim C1, witness: the pipeline on raw record rg1 = 2 with a single
radio field yields a one-entry mapping with value True for rg1. -/
theorem C1_radio_invariant_witness :
    ∃ k, dictGet [("rg1", Value.vmap [("2", RVal.bool true)]), ("rg1__rchoice", Value.str "2")]
        "rg1" = some (Value.vmap [(k, RVal.bool true)]) :=
  C1_radio_invariant [("rg1", "2")] [⟨"rg1", "radio", ""⟩]
    [("rg1", Value.vmap [("2", RVal.bool true)]), ("rg1__rchoice", Value.str "2")]
    rfl ⟨"rg1", "radio", ""⟩ (by simp) rfl

/-! ## Claim C6 -/

theorem fieldsStep_ok_eq (acc : List String) (a : Annot) (out : List String)
    (h : fieldsStep acc a = Except.ok out) :
    out = match specLogicalName a with
          | none => acc
          | some n => insNew acc n := by
  simp only [fieldsStep] at h
  simp only [specLogicalName]
  by_cases hsub : a.subtype = "/Widget"
  · rw [if_pos hsub] at h
    rw [if_pos hsub]
    by_cases hT : truthyStr a.T = true
    · rw [if_pos hT] at h
      rw [if_pos hT]
      rw [truncateCheckbox_eq_spec] at h
      simp only
      by_cases hk : specTruncate (sliceInner (a.T.getD "")) ∈ acc
      · rw [if_pos hk] at h
        rw [← Except.ok.inj h, insNew, if_pos hk]
      · rw [if_neg hk] at h
        rw [← Except.ok.inj h, insNew, if_neg hk]
    · rw [if_neg hT] at h
      rw [if_neg hT]
      cases hp : a.parent with
      | none => rw [hp] at h; cases h
      | some p =>
        rw [hp] at h
        simp only at h
        by_cases hpT : truthyStr p.T = true
        · rw [if_pos hpT] at h
          rw [truncateCheckbox_eq_spec] at h
          simp only
          rw [if_pos hpT]
          show out = insNew acc (specTruncate (sliceInner (p.T.getD "")))
          by_cases hk : specTruncate (sliceInner (p.T.getD "")) ∈ acc
          · rw [if_pos hk] at h
            rw [← Except.ok.inj h, insNew, if_pos hk]
          · rw [if_neg hk] at h
            rw [← Except.ok.inj h, insNew, if_neg hk]
        · rw [if_neg hpT] at h
          simp only
          rw [if_neg hpT]
          exact (Except.ok.inj h).symm
  · rw [if_neg hsub] at h
    rw [if_neg hsub]
    exact (Except.ok.inj h).symm

theorem fields_fold_annots (annots : List Annot) (acc out : List String)
    (h : List.foldlM fieldsStep acc annots = Except.ok out) :
    out = List.foldl insNew acc (annots.filterMap specLogicalName) := by
  induction annots generalizing acc with
  | nil =>
    rw [foldlM_except_nil_ok h]
    simp
  | cons a rest ih =>
    obtain ⟨acc1, ha, hrest⟩ := foldlM_except_ok_cons h
    have hstep := fieldsStep_ok_eq acc a acc1 ha
    cases hspec : specLogicalName a with
    | none =>
      rw [hspec] at hstep
      simp only at hstep
      rw [List.filterMap_cons, hspec]
      rw [hstep] at hrest
      exact ih acc hrest
    | some n =>
      rw [hspec] at hstep
      simp only at hstep
      rw [List.filterMap_cons, hspec, List.foldl_cons]
      rw [hstep] at hrest
      exact ih (insNew acc n) hrest

theorem specWidgetNames_cons (page : Option (List Annot)) (rest : PdfDoc) :
    specWidgetNames (page :: rest)
      = (page.getD []).filterMap specLogicalName ++ specWidgetNames rest := by
  simp [specWidgetNames]

theorem fields_fold_pages (doc : PdfDoc) (acc out : List String)
    (h : List.foldlM (fun result page =>
            match page with
            | none => Except.ok result
            | some annots => List.foldlM fieldsStep result annots) acc doc
          = Except.ok out) :
    out = List.foldl insNew acc (specWidgetNames doc) := by
  induction doc generalizing acc with
  | nil =>
    rw [foldlM_except_nil_ok h]
    simp [specWidgetNames]
  | cons page rest ih =>
    obtain ⟨acc1, hp, hrest⟩ := foldlM_except_ok_cons h
    rw [specWidgetNames_cons, List.foldl_append]
    cases page with
    | none =>
      simp only at hp
      rw [← Except.ok.inj hp] at hrest
      simp only [Option.getD_none, List.filterMap_nil, List.foldl_nil]
      exact ih acc hrest
    | some annots =>
      simp only at hp
      have h1 := fields_fold_annots annots acc acc1 hp
      simp only [Option.getD_some]
      rw [← h1]
      exact ih acc1 hrest

/-- Claim C6: whenever get_pdf_fields succeeds it returns exactly the
first-seen-order de-duplication of the logical names of all Widget
annotations across all pages, a widget's logical name being its own
field-name key if present, else its parent's, truncated at the first '___'
occurrence. -/
theorem C6_field_discovery (doc : PdfDoc) (out : List String)
    (h : get_pdf_fields doc = Except.ok out) :
    out = dedupFirstSeen (specWidgetNames doc) :=
  fields_fold_pages doc [] out h

/-- Claim C6, witness: discovery on a page with widgets named (cb_1___3) and
(cb_1___7) plus one grouped widget under parent (g) yields cb_1, g. -/
theorem C6_field_discovery_witness :
    ["cb_1", "g"] = dedupFirstSeen (specWidgetNames wdoc) :=
  C6_field_discovery wdoc ["cb_1", "g"] rfl

/-! ## Claim C5 -/

theorem pySplitCommaSpace_ne_nil (s : String) : pySplitCommaSpace s ≠ [] := by
  cases hs : splitOnPair ',' ' ' s.data with
  | nil => exact absurd hs (splitOnPair_ne_nil ',' ' ' s.data)
  | cons h t => simp [pySplitCommaSpace, hs]

theorem parseChoiceOption_eq_spec (sub : List (String × String)) (e : String)
    (hstrip : pyStrip e = e) :
    parseChoiceOption sub e = dictSet sub (specParseEntry e).1 (specParseEntry e).2 := by
  unfold parseChoiceOption specParseEntry
  rw [hstrip]
  cases hs : pySplitCommaSpace e with
  | nil => exact absurd hs (pySplitCommaSpace_ne_nil e)
  | cons f rest => simp only

theorem choice_fold_eq (entries : List String)
    (hstrip : ∀ e ∈ entries, pyStrip e = e) :
    ∀ acc, entries.foldl parseChoiceOption acc
      = entries.foldl
          (fun acc e => dictSet acc (specParseEntry e).1 (specParseEntry e).2) acc := by
  induction entries with
  | nil => intro acc; rfl
  | cons e rest ih =>
    intro acc
    rw [List.foldl_cons, List.foldl_cons,
      parseChoiceOption_eq_spec acc e (hstrip e (List.mem_cons_self e rest))]
    exact ih (fun e2 he2 => hstrip e2 (List.mem_cons_of_mem e he2)) _

theorem foldlM_except_singleton {ε α β : Type} (f : β → α → Except ε β) (b : β) (a : α) :
    List.foldlM f b [a] = f b a := by
  rw [List.foldlM_cons]
  cases h : f b a <;> simp [h, List.foldlM_nil, Bind.bind, Except.bind, Pure.pure, Except.pure]

/-- Claim C5: dropdown conversion leaves an empty record value unchanged,
replaces a non-empty value with the display text found for it in the
choice-text map, and fails with a KeyError-class error when the raw value is
absent from the map; the choice-text map entry for a field is exactly the
spec-described parse of its choice-encoding string (split on ' | ', bare '|'
fallback, first ', '-token as raw value, rest rejoined with ', '), stated
for entries already free of surrounding whitespace (the code additionally
strips each entry). -/
theorem C5_dropdown_conversion (f : FieldMeta) (r : Record) (v t : String)
    (sub : List (String × String)) (hty : f.field_type = "dropdown") :
    (dictGet r f.field_name = some (Value.str "") →
       convert_dropdowns_to_strings r [f] = Except.ok r) ∧
    (dictGet r f.field_name = some (Value.str v) → v ≠ "" →
       dictGet (get_multiple_choice_text [f]) f.field_name = some sub →
       dictGet sub v = some t →
       convert_dropdowns_to_strings r [f]
         = Except.ok (dictSet r f.field_name (Value.str t))) ∧
    (dictGet r f.field_name = some (Value.str v) → v ≠ "" →
       dictGet (get_multiple_choice_text [f]) f.field_name = some sub →
       dictGet sub v = none →
       convert_dropdowns_to_strings r [f] = Except.error PyErr.keyError) ∧
    (f.select_choices_or_calculations ≠ "" →
       (∀ e ∈ choiceEntries f.select_choices_or_calculations, pyStrip e = e) →
       dictGet (get_multiple_choice_text [f]) f.field_name
         = some (specChoiceMap f.select_choices_or_calculations)) := by
  refine ⟨?_, ?_, ?_, ?_⟩
  · intro hget
    unfold convert_dropdowns_to_strings
    rw [foldlM_except_singleton]
    simp [dropdownStep, hty, hget]
  · intro hget hv hsub hlook
    unfold convert_dropdowns_to_strings
    rw [foldlM_except_singleton]
    simp [dropdownStep, hty, hget, hv, hsub, hlook]
  · intro hget hv hsub hlook
    unfold convert_dropdowns_to_strings
    rw [foldlM_except_singleton]
    simp [dropdownStep, hty, hget, hv, hsub, hlook]
  · intro hsel hstrip
    simp only [get_multiple_choice_text, List.foldl_cons, List.foldl_nil]
    rw [if_neg hsel, dictGet_dictSet_self]
    rw [choice_fold_eq (choiceEntries f.select_choices_or_calculations) hstrip]
    rfl

/-- Claim C5, witness: the spec scenario dd1 with choices 1, Red | 2, Blue
and record value 2 converts to the display text Blue. -/
theorem C5_dropdown_conversion_witness :
    convert_dropdowns_to_strings [("dd1", Value.str "2")]
        [⟨"dd1", "dropdown", "1, Red | 2, Blue"⟩]
      = Except.ok [("dd1", Value.str "Blue")] := by
  have h := (C5_dropdown_conversion ⟨"dd1", "dropdown", "1, Red | 2, Blue"⟩
    [("dd1", Value.str "2")] "2" "Blue" [("1", "Red"), ("2", "Blue")] rfl).2.1
    rfl (by decide) rfl rfl
  exact h

/-! ## Claim C3 -/

theorem convertStaged_go (rbs cbs : List String) :
    ∀ (r : RawRecord) (acc : List (String × Value)),
      (∀ kv ∈ r, (kv.1 ++ RADIO_BUTTON_CHOICE_SUFFIX) ∉ acc.map Prod.fst) →
      (r.map Prod.fst).Nodup →
      r.foldl (fun staged kv =>
        if isCheckboxKey cbs kv.1 then staged
        else if kv.1 ∈ rbs then
          if kv.2 ≠ "" then
            dictSet staged (kv.1 ++ RADIO_BUTTON_CHOICE_SUFFIX) (Value.str kv.2)
          else staged
        else staged) acc
      = acc ++ stagedSpec rbs cbs r := by
  intro r
  induction r with
  | nil =>
    intro acc h1 h2
    simp [stagedSpec]
  | cons kv rest ih =>
    intro acc hfresh hnd
    simp only [List.map_cons, List.nodup_cons] at hnd
    rw [List.foldl_cons]
    by_cases hcb : isCheckboxKey cbs kv.1 = true
    · rw [if_pos hcb]
      rw [ih acc (fun kv2 h2 => hfresh kv2 (List.mem_cons_of_mem kv h2)) hnd.2]
      have hs : stagedSpec rbs cbs (kv :: rest) = stagedSpec rbs cbs rest := by
        simp [stagedSpec, List.filterMap_cons, hcb]
      rw [hs]
    · rw [if_neg hcb]
      by_cases hrb : kv.1 ∈ rbs
      · rw [if_pos hrb]
        by_cases hv : kv.2 ≠ ""
        · rw [if_pos hv]
          have hkey : (kv.1 ++ RADIO_BUTTON_CHOICE_SUFFIX) ∉ acc.map Prod.fst :=
            hfresh kv (List.mem_cons_self kv rest)
          rw [dictSet_append_of_not_mem acc _ _ hkey]
          have hfresh2 : ∀ kv2 ∈ rest, (kv2.1 ++ RADIO_BUTTON_CHOICE_SUFFIX)
              ∉ (acc ++ [(kv.1 ++ RADIO_BUTTON_CHOICE_SUFFIX, Value.str kv.2)]).map Prod.fst := by
            intro kv2 h2
            simp only [List.map_append, List.mem_append, List.map_cons, List.map_nil,
              List.mem_singleton]
            push_neg
            constructor
            · exact hfresh kv2 (List.mem_cons_of_mem kv h2)
            · intro hx
              have hk : kv2.1 = kv.1 := string_append_cancel_right _ _ _ hx
              exact hnd.1 (hk ▸ List.mem_map.mpr ⟨kv2, h2, rfl⟩)
          rw [ih (acc ++ [(kv.1 ++ RADIO_BUTTON_CHOICE_SUFFIX, Value.str kv.2)]) hfresh2 hnd.2]
          have hs : stagedSpec rbs cbs (kv :: rest)
              = (kv.1 ++ RADIO_BUTTON_CHOICE_SUFFIX, Value.str kv.2) :: stagedSpec rbs cbs rest := by
            simp [stagedSpec, List.filterMap_cons, hcb, hrb, hv]
          rw [hs, List.append_assoc]
          rfl
        · rw [if_neg hv]
          rw [ih acc (fun kv2 h2 => hfresh kv2 (List.mem_cons_of_mem kv h2)) hnd.2]
          have hs : stagedSpec rbs cbs (kv :: rest) = stagedSpec rbs cbs rest := by
            simp [stagedSpec, List.filterMap_cons, hcb, hrb, hv]
          rw [hs]
      · rw [if_neg hrb]
        rw [ih acc (fun kv2 h2 => hfresh kv2 (List.mem_cons_of_mem kv h2)) hnd.2]
        have hs : stagedSpec rbs cbs (kv :: rest) = stagedSpec rbs cbs rest := by
          simp [stagedSpec, List.filterMap_cons, hcb, hrb]
        rw [hs]

theorem convertStaged_eq (rbs cbs : List String) (r : RawRecord)
    (hnd : (r.map Prod.fst).Nodup) :
    convertStaged rbs cbs r = stagedSpec rbs cbs r := by
  unfold convertStaged
  rw [convertStaged_go rbs cbs r [] (by simp) hnd]
  simp

theorem stagedSpec_key_shape (rbs cbs : List String) (r : RawRecord) (key : String)
    (h : key ∈ (stagedSpec rbs cbs r).map Prod.fst) :
    ∃ kv, kv ∈ r ∧ key = kv.1 ++ RADIO_BUTTON_CHOICE_SUFFIX ∧
      isCheckboxKey cbs kv.1 = false ∧ kv.1 ∈ rbs ∧ kv.2 ≠ "" := by
  rcases List.mem_map.mp h with ⟨pair, hpair, hfst⟩
  rcases List.mem_filterMap.mp hpair with ⟨kv, hkv, hf⟩
  by_cases hcb : isCheckboxKey cbs kv.1 = true
  · rw [if_pos hcb] at hf
    cases hf
  · rw [if_neg hcb] at hf
    by_cases hrb : kv.1 ∈ rbs
    · rw [if_pos hrb] at hf
      by_cases hv : kv.2 ≠ ""
      · rw [if_pos hv] at hf
        refine ⟨kv, hkv, ?_, by simpa using hcb, hrb, hv⟩
        rw [← hfst, ← Option.some.inj hf]
      · rw [if_neg hv] at hf
        cases hf
    · rw [if_neg hrb] at hf
      cases hf

theorem stagedSpec_mem (rbs cbs : List String) (r : RawRecord) (k v : String)
    (hmem : (k, v) ∈ r) (hcb : isCheckboxKey cbs k = false) (hrb : k ∈ rbs)
    (hv : v ≠ "") :
    (k ++ RADIO_BUTTON_CHOICE_SUFFIX, Value.str v) ∈ stagedSpec rbs cbs r := by
  refine List.mem_filterMap.mpr ⟨(k, v), hmem, ?_⟩
  rw [if_neg (by simp [hcb]), if_pos hrb, if_pos hv]

theorem stagedSpec_keys_nodup (rbs cbs : List String) (r : RawRecord)
    (hnd : (r.map Prod.fst).Nodup) :
    ((stagedSpec rbs cbs r).map Prod.fst).Nodup := by
  induction r with
  | nil => simp [stagedSpec]
  | cons kv rest ih =>
    simp only [List.map_cons, List.nodup_cons] at hnd
    have ihr := ih hnd.2
    by_cases hcb : isCheckboxKey cbs kv.1 = true
    · have hs : stagedSpec rbs cbs (kv :: rest) = stagedSpec rbs cbs rest := by
        simp [stagedSpec, List.filterMap_cons, hcb]
      rw [hs]
      exact ihr
    · by_cases hrb : kv.1 ∈ rbs
      · by_cases hv : kv.2 ≠ ""
        · have hs : stagedSpec rbs cbs (kv :: rest)
              = (kv.1 ++ RADIO_BUTTON_CHOICE_SUFFIX, Value.str kv.2) :: stagedSpec rbs cbs rest := by
            simp [stagedSpec, List.filterMap_cons, hcb, hrb, hv]
          rw [hs, List.map_cons, List.nodup_cons]
          refine ⟨?_, ihr⟩
          intro hx
          rcases stagedSpec_key_shape rbs cbs rest _ hx with ⟨kv2, hkv2, hkey, _, _, _⟩
          have hk : kv.1 = kv2.1 := string_append_cancel_right _ _ _ hkey
          exact hnd.1 (hk ▸ List.mem_map.mpr ⟨kv2, hkv2, rfl⟩)
        · have hs : stagedSpec rbs cbs (kv :: rest) = stagedSpec rbs cbs rest := by
            simp [stagedSpec, List.filterMap_cons, hcb, hrb, hv]
          rw [hs]
          exact ihr
      · have hs : stagedSpec rbs cbs (kv :: rest) = stagedSpec rbs cbs rest := by
          simp [stagedSpec, List.filterMap_cons, hcb, hrb]
        rw [hs]
        exact ihr

theorem convert_out_keys (r : RawRecord) (f : String → String → Value) :
    (r.map (fun kv => (kv.1, f kv.1 kv.2))).map Prod.fst = r.map Prod.fst := by
  rw [List.map_map]
  rfl

/-- Claim C3: the checkbox/radio conversion stage maps every key of a raw
record (with no reserved '__rchoice'-suffixed keys) as follows: checkbox
keys (those splitting on '___' with a known checkbox first part) become
booleans, true iff the raw string is '1'; remaining keys that are known
radio fields become the one-entry mapping from the raw value to True, with a
synthetic key + '__rchoice' text entry merged after the pass exactly when
the raw value is non-empty; all other keys keep their value unchanged. -/
theorem C3_checkbox_radio_conversion
    (r : RawRecord) (md : List FieldMeta) (k v : String)
    (hnodup : (r.map Prod.fst).Nodup)
    (hno : ∀ key ∈ r.map Prod.fst, pyEndsWith key RADIO_BUTTON_CHOICE_SUFFIX = false)
    (hmem : (k, v) ∈ r) :
    (isCheckboxKey (extract_field md "checkbox") k = true →
       dictGet (convert_checkboxes_and_radio_buttons r md) k
         = some (Value.bool (decide (v = "1")))) ∧
    (isCheckboxKey (extract_field md "checkbox") k = false →
       k ∈ extract_field md "radio" →
       dictGet (convert_checkboxes_and_radio_buttons r md) k
         = some (Value.vmap [(v, RVal.bool true)]) ∧
       (v ≠ "" → dictGet (convert_checkboxes_and_radio_buttons r md)
           (k ++ RADIO_BUTTON_CHOICE_SUFFIX) = some (Value.str v)) ∧
       (v = "" → dictGet (convert_checkboxes_and_radio_buttons r md)
           (k ++ RADIO_BUTTON_CHOICE_SUFFIX) = none)) ∧
    (isCheckboxKey (extract_field md "checkbox") k = false →
       k ∉ extract_field md "radio" →
       dictGet (convert_checkboxes_and_radio_buttons r md) k = some (Value.str v)) := by
  have hkr : k ∈ r.map Prod.fst := List.mem_map.mpr ⟨(k, v), hmem, rfl⟩
  have hget_r : dictGet r k = some v := dictGet_of_mem_nodup r k v hmem hnodup
  have hknotstaged : ∀ rbs cbs : List String, k ∉ (stagedSpec rbs cbs r).map Prod.fst := by
    intro rbs cbs hk
    rcases stagedSpec_key_shape rbs cbs r k hk with ⟨kv, _, hkey, _, _, _⟩
    have hend := hno k hkr
    rw [hkey, pyEndsWith_append_self] at hend
    cases hend
  have hsfxnotout : (k ++ RADIO_BUTTON_CHOICE_SUFFIX) ∉ r.map Prod.fst := by
    intro hx
    have hend := hno (k ++ RADIO_BUTTON_CHOICE_SUFFIX) hx
    rw [pyEndsWith_append_self] at hend
    cases hend
  refine ⟨?_, ?_, ?_⟩
  · intro hcb
    simp only [convert_checkboxes_and_radio_buttons, get_radio_buttons_checkboxes]
    rw [convertStaged_eq _ _ r hnodup,
      dictUpdate_get_of_not_mem _ _ _ (hknotstaged _ _),
      dictGet_map_entry, hget_r]
    simp [convertVal, hcb]
  · intro hcb hrb
    refine ⟨?_, ?_, ?_⟩
    · simp only [convert_checkboxes_and_radio_buttons, get_radio_buttons_checkboxes]
      rw [convertStaged_eq _ _ r hnodup,
        dictUpdate_get_of_not_mem _ _ _ (hknotstaged _ _),
        dictGet_map_entry, hget_r]
      simp [convertVal, hcb, hrb]
    · intro hv
      simp only [convert_checkboxes_and_radio_buttons, get_radio_buttons_checkboxes]
      rw [convertStaged_eq _ _ r hnodup]
      exact dictUpdate_get_of_mem_nodup _ _ _ _
        (stagedSpec_mem _ _ r k v hmem hcb hrb hv)
        (stagedSpec_keys_nodup _ _ r hnodup)
    · intro hv
      simp only [convert_checkboxes_and_radio_buttons, get_radio_buttons_checkboxes]
      rw [convertStaged_eq _ _ r hnodup]
      rw [dictUpdate_get_of_not_mem]
      · apply dictGet_eq_none_of_not_mem
        rw [convert_out_keys]
        exact hsfxnotout
      · intro hx
        rcases stagedSpec_key_shape _ _ r (k ++ RADIO_BUTTON_CHOICE_SUFFIX) hx
          with ⟨kv, hkv, hkey, _, _, hne⟩
        have hk1 : kv.1 = k := string_append_cancel_right kv.1 k _ hkey.symm
        have hmem2 : (k, kv.2) ∈ r := by
          rw [← hk1]
          exact hkv
        have heqv : kv.2 = v := value_unique_of_nodup r k kv.2 v hmem2 hmem hnodup
        exact hne (heqv.trans hv)
  · intro hcb hrb
    simp only [convert_checkboxes_and_radio_buttons, get_radio_buttons_checkboxes]
    rw [convertStaged_eq _ _ r hnodup,
      dictUpdate_get_of_not_mem _ _ _ (hknotstaged _ _),
      dictGet_map_entry, hget_r]
    simp [convertVal, hcb, hrb]

/-- Claim C3, witness: the spec's radio raw-value bridging example: raw
record r1 = 3 with r1 a radio field yields the mapping entry and the
synthetic r1__rchoice text entry. -/
theorem C3_checkbox_radio_conversion_witness :
    dictGet (convert_checkboxes_and_radio_buttons [("r1", "3")] [⟨"r1", "radio", ""⟩]) "r1"
      = some (Value.vmap [("3", RVal.bool true)]) ∧
    dictGet (convert_checkboxes_and_radio_buttons [("r1", "3")] [⟨"r1", "radio", ""⟩])
        "r1__rchoice" = some (Value.str "3") := by
  have h := (C3_checkbox_radio_conversion [("r1", "3")] [⟨"r1", "radio", ""⟩] "r1" "3"
    (by simp) (by decide) (by simp)).2.1 (by decide) (by decide)
  exact ⟨h.1, h.2.1 (by decide)⟩

end RC
